import Mathlib

/-!
Verification development for the Peloton write-behind logging staging layer
(`src/backend/logging/records/log_record_pool.h`) and the SQL bitwise builtin
functions (`src/backend/expression/bitwise_functions.h`).

The pool is a map from transaction identifier to the ordered list of tuple
records appended for that transaction
(`std::map<txn_id_t, std::vector<std::unique_ptr<TupleRecord>>> txn_log_table`).
We embed it as an association list with unique keys over `Nat` transaction
identifiers.  The header only declares `CreateTxnLogList`, `AddLogRecord`,
`RemoveTxnLogRecordList` and `ExistsTxnLogRecordList` (their translation units
are not part of the sources at hand), so those operations are modelled from the
specification; `IsEmpty` is defined inline in the header and is translated
directly.

The bitwise builtins are pure functions over 64-bit two's-complement integers;
we embed `int64_t` as `Int` restricted to `[-2^63, 2^63)` with explicit
wrapping through the unsigned bit pattern where the C++ code shifts.
-/

/-- A tuple-level log record.  Only the owning transaction identifier matters
to the pool contract; the rest of the record (operation kind, tuple images,
...) is opaque to the pool and collapsed into `payload`. -/
structure TupleRecord where
  txn_id : Nat
  payload : Nat
deriving DecidableEq, Repr

/-- The pool's `txn_log_table`: a finite map from transaction identifier to
the ordered list of records appended for that transaction, embedded as an
association list (reachable states keep keys unique, mirroring `std::map`). -/
abbrev Pool := List (Nat × List TupleRecord)

/-- Error taxonomy of the pool contract (spec section 7). -/
inductive PoolError
  | DuplicateTransaction
  | NoSuchTransaction
deriving DecidableEq, Repr

namespace LogRecordPool

/-- Lookup of a transaction's record list in `txn_log_table`
(`txn_log_table.find(txn_id)`), returning the first binding for the key. -/
def lookupTxn : Pool → Nat → Option (List TupleRecord)
  | [], _ => none
  | (u, l) :: rest, t => if u = t then some l else lookupTxn rest t

/-- `bool IsEmpty() const { return txn_log_table.empty(); }` -/
def IsEmpty (p : Pool) : Bool := p.isEmpty

/-- Modelled from the spec (the body of `ExistsTxnLogRecordList` is not in the
sources): O(lookup) membership test on `txn_log_table`. -/
def ExistsTxnLogRecordList (p : Pool) (t : Nat) : Bool := (lookupTxn p t).isSome

/-- Modelled from the spec (the body of `CreateTxnLogList` is not in the
sources): creates an empty record list keyed by `t`; fails with
`DuplicateTransaction`, leaving the pool unchanged, if a list for `t` already
exists. -/
def CreateTxnLogList (p : Pool) (t : Nat) : Pool × Option PoolError :=
  if ExistsTxnLogRecordList p t then (p, some PoolError.DuplicateTransaction)
  else ((t, []) :: p, none)

/-- Modelled from the spec (the body of `AddLogRecord` is not in the sources):
appends `r` at the back of the list keyed by `r.txn_id`; fails with
`NoSuchTransaction`, leaving the pool unchanged, if no such list exists. -/
def AddLogRecord : Pool → TupleRecord → Pool × Option PoolError
  | [], _ => ([], some PoolError.NoSuchTransaction)
  | (u, l) :: rest, r =>
    if u = r.txn_id then ((u, l ++ [r]) :: rest, none)
    else ((u, l) :: (AddLogRecord rest r).1, (AddLogRecord rest r).2)

/-- Modelled from the spec (the body of `RemoveTxnLogRecordList` is not in the
sources): deletes and discards the list for `t`; removing an absent key is a
no-op, not an error. -/
def RemoveTxnLogRecordList : Pool → Nat → Pool
  | [], _ => []
  | (u, l) :: rest, t =>
    if u = t then RemoveTxnLogRecordList rest t
    else (u, l) :: RemoveTxnLogRecordList rest t

/-- Modelled from the spec: `DrainFor(txn_id)` atomically removes and returns
ownership of the list for `t`; fails with `NoSuchTransaction` if absent. -/
def DrainFor (p : Pool) (t : Nat) : Except PoolError (List TupleRecord) × Pool :=
  match lookupTxn p t with
  | none => (Except.error PoolError.NoSuchTransaction, p)
  | some l => (Except.ok l, RemoveTxnLogRecordList p t)

end LogRecordPool

/-- One client-visible pool operation, for stating trace properties. -/
inductive PoolOp
  | createList (t : Nat)
  | append (r : TupleRecord)
  | remove (t : Nat)
  | drain (t : Nat)
deriving DecidableEq, Repr

/-- The pool state reached after one operation (failed operations leave the
state unchanged, as each operation's contract requires). -/
def stepPool (p : Pool) : PoolOp → Pool
  | PoolOp.createList t => (LogRecordPool.CreateTxnLogList p t).1
  | PoolOp.append r => (LogRecordPool.AddLogRecord p r).1
  | PoolOp.remove t => LogRecordPool.RemoveTxnLogRecordList p t
  | PoolOp.drain t => (LogRecordPool.DrainFor p t).2

/-- The pool state reached after a sequence of operations. -/
def runOps (ops : List PoolOp) (p : Pool) : Pool := ops.foldl stepPool p

/-- The pool containing no transaction lists (initial state). -/
def poolEmpty : Pool := []

/-- Specification-side automaton for a single transaction `t`: the record list
the spec says the pool holds for `t` (`none` when no list is outstanding).  A
successful `createList` starts an empty list, a successful `append` adds the
record at the back, `remove` and `drain` retire the list; operations on other
transactions do not touch it. -/
def stepProj (t : Nat) (cur : Option (List TupleRecord)) : PoolOp → Option (List TupleRecord)
  | PoolOp.createList u =>
    if u = t then (match cur with | some l => some l | none => some []) else cur
  | PoolOp.append r =>
    if r.txn_id = t then (match cur with | some l => some (l ++ [r]) | none => none) else cur
  | PoolOp.remove u => if u = t then none else cur
  | PoolOp.drain u => if u = t then none else cur

/-- The spec-side record list outstanding for transaction `t` after running
`ops` from the empty pool. -/
def trackTxn (t : Nat) (ops : List PoolOp) : Option (List TupleRecord) :=
  ops.foldl (stepProj t) none

/-- Every record stored in the pool is filed under its owning transaction
identifier: each entry's list contains only records whose `txn_id` equals the
entry's key. -/
def AllOwned (p : Pool) : Prop := ∀ e ∈ p, ∀ r ∈ e.2, r.txn_id = e.1

/-! ## Bitwise builtin functions (`bitwise_functions.h`) -/

/-- `INT64_MIN`, the smallest 64-bit two's-complement integer. -/
def INT64_MIN : Int := -(2 ^ 63)

/-- `INT64_NULL`: the bit pattern `INT64_MIN` is reserved to represent the SQL
NULL value of type BIGINT. -/
def INT64_NULL : Int := INT64_MIN

/-- `isNull()` for a BIGINT payload: the payload equals the reserved NULL
pattern. -/
def isNull64 (x : Int) : Bool := x == INT64_NULL

/-- `x` is a representable `int64_t` value. -/
def inInt64 (x : Int) : Prop := -(2 ^ 63) ≤ x ∧ x < 2 ^ 63

instance (x : Int) : Decidable (inInt64 x) := by
  unfold inInt64
  infer_instance

/-- The unsigned 64-bit bit pattern of an `int64_t` value (the effect of the
C++ cast `(uint64_t) lv`). -/
def toU64 (x : Int) : Nat := (x % (2 ^ 64 : Int)).toNat

/-- Reinterpret an unsigned 64-bit bit pattern as an `int64_t` value (the
effect of the C++ cast `(int64_t)` on a `uint64_t` below `2^64`). -/
def ofU64 (n : Nat) : Int := if n < 2 ^ 63 then (n : Int) else (n : Int) - 2 ^ 64

/-- Two's-complement 64-bit bitwise AND of `int64_t` values: AND of the bit
patterns, reinterpreted as signed. -/
def land64 (a b : Int) : Int := ofU64 (Nat.land (toU64 a) (toU64 b))

/-- Two's-complement 64-bit bitwise OR of `int64_t` values. -/
def lor64 (a b : Int) : Int := ofU64 (Nat.lor (toU64 a) (toU64 b))

/-- Two's-complement 64-bit bitwise XOR of `int64_t` values. -/
def lxor64 (a b : Int) : Int := ofU64 (Nat.xor (toU64 a) (toU64 b))

/-- Exceptions thrown by the bitwise builtins on BIGINT inputs. -/
inductive SqlError
  | ValueOutOfRange
deriving DecidableEq, Repr

instance {ε α : Type} [DecidableEq ε] [DecidableEq α] : DecidableEq (Except ε α) := fun a b =>
  match a, b with
  | Except.ok x, Except.ok y =>
    if h : x = y then isTrue (by rw [h]) else isFalse (by intro hc; cases hc; exact h rfl)
  | Except.error x, Except.error y =>
    if h : x = y then isTrue (by rw [h]) else isFalse (by intro hc; cases hc; exact h rfl)
  | Except.ok _, Except.error _ => isFalse (by intro hc; cases hc)
  | Except.error _, Except.ok _ => isFalse (by intro hc; cases hc)

/-- `Value::callUnary<FUNC_VOLT_BITNOT>`: NULL propagates; otherwise the
result is `~x` (for `int64_t` this is exactly `-x - 1`), and producing the
reserved pattern `INT64_MIN` throws `ValueOutOfRangeException`. -/
def callBitnot (x : Int) : Except SqlError Int :=
  if isNull64 x then Except.ok INT64_NULL
  else
    let result : Int := -x - 1
    if result = INT64_NULL then Except.error SqlError.ValueOutOfRange
    else Except.ok result

/-- `Value::call<FUNC_BITAND>`: NULL propagates; otherwise `lv & rv`, and
producing `INT64_MIN` throws `ValueOutOfRangeException`. -/
def callBitand (lv rv : Int) : Except SqlError Int :=
  if isNull64 lv || isNull64 rv then Except.ok INT64_NULL
  else
    let result : Int := land64 lv rv
    if result = INT64_NULL then Except.error SqlError.ValueOutOfRange
    else Except.ok result

/-- `Value::call<FUNC_BITOR>`: NULL propagates; otherwise `lv | rv`, and
producing `INT64_MIN` throws `ValueOutOfRangeException`. -/
def callBitor (lv rv : Int) : Except SqlError Int :=
  if isNull64 lv || isNull64 rv then Except.ok INT64_NULL
  else
    let result : Int := lor64 lv rv
    if result = INT64_NULL then Except.error SqlError.ValueOutOfRange
    else Except.ok result

/-- `Value::call<FUNC_BITXOR>`: NULL propagates; otherwise `lv ^ rv`, and
producing `INT64_MIN` throws `ValueOutOfRangeException`. -/
def callBitxor (lv rv : Int) : Except SqlError Int :=
  if isNull64 lv || isNull64 rv then Except.ok INT64_NULL
  else
    let result : Int := lxor64 lv rv
    if result = INT64_NULL then Except.error SqlError.ValueOutOfRange
    else Except.ok result

/-- `Value::call<FUNC_VOLT_BIT_SHIFT_LEFT>`: NULL propagates; a negative shift
count throws; a count above 63 yields BIGINT 0; otherwise `lv << shifts` on
the 64-bit machine (two's-complement wrap of the shifted bit pattern), and
producing `INT64_MIN` throws `ValueOutOfRangeException`. -/
def callBitShiftLeft (lv rv : Int) : Except SqlError Int :=
  if isNull64 lv || isNull64 rv then Except.ok INT64_NULL
  else if rv < 0 then Except.error SqlError.ValueOutOfRange
  else if 63 < rv then Except.ok 0
  else
    let result : Int := ofU64 ((toU64 lv <<< rv.toNat) % 2 ^ 64)
    if result = INT64_NULL then Except.error SqlError.ValueOutOfRange
    else Except.ok result

/-- `Value::call<FUNC_VOLT_BIT_SHIFT_RIGHT>`: NULL propagates; a negative
shift count throws; a count above 63 yields BIGINT 0; otherwise
`(int64_t)(((uint64_t) lv) >> shifts)` — logical, zero-filling right shift of
the bit pattern — and producing `INT64_MIN` throws
`ValueOutOfRangeException`. -/
def callBitShiftRight (lv rv : Int) : Except SqlError Int :=
  if isNull64 lv || isNull64 rv then Except.ok INT64_NULL
  else if rv < 0 then Except.error SqlError.ValueOutOfRange
  else if 63 < rv then Except.ok 0
  else
    let result : Int := ofU64 (toU64 lv >>> rv.toNat)
    if result = INT64_NULL then Except.error SqlError.ValueOutOfRange
    else Except.ok result

/-! ## Helper lemmas about the pool operations -/

namespace LogRecordPool

theorem lookupTxn_remove (p : Pool) (u t : Nat) :
    lookupTxn (RemoveTxnLogRecordList p u) t = if u = t then none else lookupTxn p t := by
  induction p with
  | nil => simp [RemoveTxnLogRecordList, lookupTxn]
  | cons e rest ih =>
    obtain ⟨v, l⟩ := e
    by_cases hvu : v = u <;> by_cases hut : u = t
    · rw [hut] at ih
      have hvt : v = t := hvu.trans hut
      simp [RemoveTxnLogRecordList, lookupTxn, hvu, hut, hvt, ih]
    · have hvt : v ≠ t := by rw [hvu]; exact hut
      simp [RemoveTxnLogRecordList, lookupTxn, hvu, hut, hvt, ih]
    · rw [hut] at ih
      have hvt : v ≠ t := fun h => hvu (h.trans hut.symm)
      simp [RemoveTxnLogRecordList, lookupTxn, hvu, hut, hvt, ih]
    · simp [RemoveTxnLogRecordList, lookupTxn, hvu, hut, ih]

theorem lookupTxn_add (p : Pool) (r : TupleRecord) (t : Nat) :
    lookupTxn (AddLogRecord p r).1 t =
      if r.txn_id = t then
        (match lookupTxn p t with
          | some l => some (l ++ [r])
          | none => none)
      else lookupTxn p t := by
  induction p with
  | nil => by_cases h : r.txn_id = t <;> simp [AddLogRecord, lookupTxn, h]
  | cons e rest ih =>
    obtain ⟨v, l⟩ := e
    by_cases hv : v = r.txn_id
    · by_cases ht : r.txn_id = t
      · have hvt : v = t := hv.trans ht
        simp [AddLogRecord, lookupTxn, hv, ht, hvt]
      · have hvt : v ≠ t := by rw [hv]; exact ht
        simp [AddLogRecord, lookupTxn, hv, ht, hvt]
    · by_cases hvt : v = t
      · have ht : r.txn_id ≠ t := fun h => hv (hvt.trans h.symm)
        have hv2 : ¬t = r.txn_id := by rw [← hvt]; exact hv
        simp [AddLogRecord, lookupTxn, hv, hv2, ht, hvt]
      · simp [AddLogRecord, lookupTxn, hv, hvt, ih]

theorem AddLogRecord_absent (p : Pool) (r : TupleRecord)
    (h : lookupTxn p r.txn_id = none) :
    AddLogRecord p r = (p, some PoolError.NoSuchTransaction) := by
  induction p with
  | nil => simp [AddLogRecord]
  | cons e rest ih =>
    obtain ⟨v, l⟩ := e
    by_cases hv : v = r.txn_id
    · simp [lookupTxn, hv] at h
    · simp only [lookupTxn, if_neg hv] at h
      simp [AddLogRecord, hv, ih h]

theorem RemoveTxnLogRecordList_absent (p : Pool) (t : Nat)
    (h : lookupTxn p t = none) : RemoveTxnLogRecordList p t = p := by
  induction p with
  | nil => rfl
  | cons e rest ih =>
    obtain ⟨v, l⟩ := e
    by_cases hv : v = t
    · simp [lookupTxn, hv] at h
    · simp only [lookupTxn, if_neg hv] at h
      simp [RemoveTxnLogRecordList, hv, ih h]

theorem RemoveTxnLogRecordList_idem (p : Pool) (t : Nat) :
    RemoveTxnLogRecordList (RemoveTxnLogRecordList p t) t = RemoveTxnLogRecordList p t := by
  induction p with
  | nil => rfl
  | cons e rest ih =>
    obtain ⟨v, l⟩ := e
    by_cases hv : v = t <;> simp [RemoveTxnLogRecordList, hv, ih]

end LogRecordPool

open LogRecordPool in
theorem lookupTxn_stepPool (p : Pool) (t : Nat) (op : PoolOp) :
    lookupTxn (stepPool p op) t = stepProj t (lookupTxn p t) op := by
  cases op with
  | createList u =>
    by_cases hut : u = t
    · cases hl : lookupTxn p t with
      | none =>
        have he : ExistsTxnLogRecordList p t = false := by
          simp [ExistsTxnLogRecordList, hl]
        simp [stepPool, CreateTxnLogList, stepProj, he, lookupTxn, hut, hl]
      | some l =>
        have he : ExistsTxnLogRecordList p t = true := by
          simp [ExistsTxnLogRecordList, hl]
        simp [stepPool, CreateTxnLogList, stepProj, he, hut, hl]
    · cases he : ExistsTxnLogRecordList p u <;>
        simp [stepPool, CreateTxnLogList, stepProj, he, lookupTxn, hut]
  | append r =>
    simp [stepPool, lookupTxn_add, stepProj]
  | remove u =>
    simp [stepPool, lookupTxn_remove, stepProj]
  | drain u =>
    cases hl : lookupTxn p u with
    | none =>
      by_cases hut : u = t
      · have hl2 : lookupTxn p t = none := by rw [← hut]; exact hl
        simp [stepPool, DrainFor, hl, stepProj, hut, hl2]
      · simp [stepPool, DrainFor, hl, stepProj, hut]
    | some l =>
      simp [stepPool, DrainFor, hl, stepProj, lookupTxn_remove]

theorem lookupTxn_runOps (ops : List PoolOp) (p : Pool) (t : Nat) :
    LogRecordPool.lookupTxn (runOps ops p) t
      = List.foldl (stepProj t) (LogRecordPool.lookupTxn p t) ops := by
  induction ops generalizing p with
  | nil => rfl
  | cons op ops ih =>
    show LogRecordPool.lookupTxn (runOps ops (stepPool p op)) t = _
    rw [ih, lookupTxn_stepPool]
    rfl

theorem stepProj_none (t : Nat) (op : PoolOp) (h : op ≠ PoolOp.createList t) :
    stepProj t none op = none := by
  cases op with
  | createList u =>
    have hu : u ≠ t := fun hu => h (by rw [hu])
    simp [stepProj, hu]
  | append r => by_cases hr : r.txn_id = t <;> simp [stepProj, hr]
  | remove u => by_cases hu : u = t <;> simp [stepProj, hu]
  | drain u => by_cases hu : u = t <;> simp [stepProj, hu]

theorem foldl_stepProj_none (t : Nat) (ops : List PoolOp)
    (h : ∀ op ∈ ops, op ≠ PoolOp.createList t) :
    List.foldl (stepProj t) none ops = none := by
  induction ops with
  | nil => rfl
  | cons op ops ih =>
    rw [List.foldl_cons, stepProj_none t op (h op (List.mem_cons_self op ops))]
    exact ih fun o ho => h o (List.mem_cons_of_mem op ho)

theorem lookupTxn_runOps_empty (ops : List PoolOp) (t : Nat) :
    LogRecordPool.lookupTxn (runOps ops poolEmpty) t = trackTxn t ops := by
  rw [lookupTxn_runOps]
  rfl

open LogRecordPool in
theorem IsEmpty_iff_lookup (p : Pool) :
    IsEmpty p = true ↔ ∀ t, lookupTxn p t = none := by
  cases p with
  | nil => simp [LogRecordPool.IsEmpty, lookupTxn]
  | cons e rest =>
    obtain ⟨v, l⟩ := e
    constructor
    · intro h
      simp [LogRecordPool.IsEmpty] at h
    · intro h
      have hv := h v
      simp [lookupTxn] at hv

open LogRecordPool in
theorem DrainFor_ok (p : Pool) (t : Nat) (l : List TupleRecord) (q : Pool)
    (h : DrainFor p t = (Except.ok l, q)) :
    lookupTxn p t = some l ∧ q = RemoveTxnLogRecordList p t := by
  cases hl : lookupTxn p t with
  | none => simp [DrainFor, hl] at h
  | some l2 =>
    simp only [DrainFor, hl, Prod.mk.injEq] at h
    obtain ⟨h1, h2⟩ := h
    have hl2 : l2 = l := by simpa using h1
    subst hl2
    exact ⟨rfl, h2.symm⟩

open LogRecordPool in
theorem lookupTxn_mem {p : Pool} {t : Nat} {l : List TupleRecord}
    (h : lookupTxn p t = some l) : (t, l) ∈ p := by
  induction p with
  | nil => simp [lookupTxn] at h
  | cons e rest ih =>
    obtain ⟨v, m⟩ := e
    by_cases hv : v = t
    · simp only [lookupTxn, if_pos hv, Option.some_inj] at h
      exact List.mem_cons.mpr (Or.inl (by simp [hv, h]))
    · simp only [lookupTxn, if_neg hv] at h
      exact List.mem_cons_of_mem _ (ih h)

open LogRecordPool in
theorem mem_remove {p : Pool} {t : Nat} {e : Nat × List TupleRecord}
    (h : e ∈ RemoveTxnLogRecordList p t) : e ∈ p := by
  induction p with
  | nil => simp [RemoveTxnLogRecordList] at h
  | cons f rest ih =>
    obtain ⟨v, l⟩ := f
    by_cases hv : v = t
    · simp only [RemoveTxnLogRecordList, if_pos hv] at h
      exact List.mem_cons_of_mem _ (ih h)
    · simp only [RemoveTxnLogRecordList, if_neg hv] at h
      rcases List.mem_cons.mp h with h1 | h2
      · exact h1 ▸ List.mem_cons_self _ _
      · exact List.mem_cons_of_mem _ (ih h2)

open LogRecordPool in
theorem remove_sublist (p : Pool) (t : Nat) :
    List.Sublist (RemoveTxnLogRecordList p t) p := by
  induction p with
  | nil => simp [RemoveTxnLogRecordList]
  | cons e rest ih =>
    obtain ⟨v, l⟩ := e
    by_cases hv : v = t
    · simp only [RemoveTxnLogRecordList, if_pos hv]
      exact ih.cons _
    · simp only [RemoveTxnLogRecordList, if_neg hv]
      exact ih.cons₂ _

open LogRecordPool in
theorem AllOwned_add {p : Pool} {r : TupleRecord} (h : AllOwned p) :
    AllOwned (AddLogRecord p r).1 := by
  induction p with
  | nil =>
    intro e he
    simp [AddLogRecord] at he
  | cons f rest ih =>
    obtain ⟨v, l⟩ := f
    have hrest : AllOwned rest := fun f hf => h f (List.mem_cons_of_mem _ hf)
    by_cases hv : v = r.txn_id
    · intro e he
      simp only [AddLogRecord, if_pos hv] at he
      rcases List.mem_cons.mp he with h1 | h2
      · subst h1
        intro x hx
        rcases List.mem_append.mp hx with hx1 | hx2
        · exact h (v, l) (List.mem_cons_self _ _) x hx1


        · have : x = r := by simpa using hx2
          rw [this, hv]
      · exact h e (List.mem_cons_of_mem _ h2)
    · intro e he
      simp only [AddLogRecord, if_neg hv] at he
      rcases List.mem_cons.mp he with h1 | h2
      · subst h1
        exact h (v, l) (List.mem_cons_self _ _)
      · exact ih hrest e h2

open LogRecordPool in
theorem AllOwned_step {p : Pool} (op : PoolOp) (h : AllOwned p) :
    AllOwned (stepPool p op) := by
  cases op with
  | createList t =>
    cases he : ExistsTxnLogRecordList p t with
    | true => simpa [stepPool, CreateTxnLogList, he] using h
    | false =>
      have hpool : stepPool p (PoolOp.createList t) = (t, []) :: p := by
        simp [stepPool, CreateTxnLogList, he]
      rw [hpool]
      intro e he2
      rcases List.mem_cons.mp he2 with h1 | h2
      · subst h1
        intro x hx
        simp at hx
      · exact h e h2
  | append r => exact AllOwned_add h
  | remove t => exact fun e he => h e (mem_remove he)
  | drain t =>
    cases hl : lookupTxn p t with
    | none => simpa [stepPool, DrainFor, hl] using h
    | some l =>
      intro e he
      simp only [stepPool, DrainFor, hl] at he
      exact h e (mem_remove he)

theorem AllOwned_runOps (ops : List PoolOp) {p : Pool} (h : AllOwned p) :
    AllOwned (runOps ops p) := by
  induction ops generalizing p with
  | nil => exact h
  | cons op ops ih => exact ih (AllOwned_step op h)

open LogRecordPool in
theorem lookupTxn_eq_none_iff (p : Pool) (t : Nat) :
    lookupTxn p t = none ↔ t ∉ p.map Prod.fst := by
  induction p with
  | nil => simp [lookupTxn]
  | cons e rest ih =>
    obtain ⟨v, l⟩ := e
    by_cases hv : v = t
    · simp [lookupTxn, hv]
    · simp [lookupTxn, hv, Ne.symm hv, ih]

open LogRecordPool in
theorem keys_add (p : Pool) (r : TupleRecord) :
    (AddLogRecord p r).1.map Prod.fst = p.map Prod.fst := by
  induction p with
  | nil => rfl
  | cons e rest ih =>
    obtain ⟨v, l⟩ := e
    by_cases hv : v = r.txn_id <;> simp [AddLogRecord, hv, ih]

open LogRecordPool in
theorem nodup_keys_step {p : Pool} (op : PoolOp)
    (h : (p.map Prod.fst).Nodup) : ((stepPool p op).map Prod.fst).Nodup := by
  cases op with
  | createList t =>
    cases he : ExistsTxnLogRecordList p t with
    | true => simpa [stepPool, CreateTxnLogList, he] using h
    | false =>
      have hn : lookupTxn p t = none := by
        cases hl : lookupTxn p t with
        | none => rfl
        | some l => simp [ExistsTxnLogRecordList, hl] at he
      have hmem : t ∉ p.map Prod.fst := (lookupTxn_eq_none_iff p t).mp hn
      have hpool : stepPool p (PoolOp.createList t) = (t, []) :: p := by
        simp [stepPool, CreateTxnLogList, he]
      rw [hpool, List.map_cons]
      exact List.nodup_cons.mpr ⟨hmem, h⟩
  | append r =>
    show ((AddLogRecord p r).1.map Prod.fst).Nodup
    rw [keys_add]
    exact h
  | remove t =>
    exact List.Nodup.sublist (List.Sublist.map Prod.fst (remove_sublist p t)) h
  | drain t =>
    cases hl : lookupTxn p t with
    | none => simpa [stepPool, DrainFor, hl] using h
    | some l =>
      have hpool : stepPool p (PoolOp.drain t) = RemoveTxnLogRecordList p t := by
        simp [stepPool, DrainFor, hl]
      rw [hpool]
      exact List.Nodup.sublist (List.Sublist.map Prod.fst (remove_sublist p t)) h

theorem nodup_keys_runOps (ops : List PoolOp) {p : Pool}
    (h : (p.map Prod.fst).Nodup) : ((runOps ops p).map Prod.fst).Nodup := by
  induction ops generalizing p with
  | nil => exact h
  | cons op ops ih => exact ih (nodup_keys_step op h)

/-! ## Claims -/

/-- Claim C1: for every transaction identifier and every sequence of pool
operations from the empty pool, the record list held for that transaction —
and the list returned when it is drained — is exactly the one computed by the
single-transaction specification automaton, in which each successful Append
adds the record at the back of the list: append order within a transaction is
preserved. -/
theorem claim_C1_append_order (ops : List PoolOp) (t : Nat) :
    LogRecordPool.lookupTxn (runOps ops poolEmpty) t = trackTxn t ops
    ∧ (LogRecordPool.DrainFor (runOps ops poolEmpty) t).1
        = (match trackTxn t ops with
            | some l => Except.ok l
            | none => Except.error PoolError.NoSuchTransaction) := by
  refine ⟨lookupTxn_runOps_empty ops t, ?_⟩
  cases hm : trackTxn t ops with
  | none =>
    have h : LogRecordPool.lookupTxn (runOps ops poolEmpty) t = none := by
      rw [lookupTxn_runOps_empty, hm]
    simp [LogRecordPool.DrainFor, h]
  | some l =>
    have h : LogRecordPool.lookupTxn (runOps ops poolEmpty) t = some l := by
      rw [lookupTxn_runOps_empty, hm]
    simp [LogRecordPool.DrainFor, h]

/-- Claim C2: appending a record whose owning transaction identifier has no
list in the pool fails with `NoSuchTransaction` and does not modify the
pool. -/
theorem claim_C2_append_without_list (p : Pool) (r : TupleRecord)
    (h : LogRecordPool.ExistsTxnLogRecordList p r.txn_id = false) :
    LogRecordPool.AddLogRecord p r = (p, some PoolError.NoSuchTransaction) := by
  cases hl : LogRecordPool.lookupTxn p r.txn_id with
  | none => exact LogRecordPool.AddLogRecord_absent p r hl
  | some l => simp [LogRecordPool.ExistsTxnLogRecordList, hl] at h

/-- Claim C2 witness: `Append(record for txn 9)` on a pool holding only txn 5
fails with `NoSuchTransaction` and leaves the pool unchanged. -/
theorem claim_C2_witness :
    LogRecordPool.AddLogRecord [(5, [])] ⟨9, 0⟩
      = ([(5, [])], some PoolError.NoSuchTransaction) :=
  claim_C2_append_without_list [(5, [])] ⟨9, 0⟩ (by decide)

/-- Claim C3: `CreateTxnLogList` on an identifier that already has a list
fails with `DuplicateTransaction` and leaves the pool (hence the existing
list) unchanged; on an identifier with no list it succeeds and the new list
keyed by that identifier is empty. -/
theorem claim_C3_createList (p : Pool) (t : Nat) :
    (LogRecordPool.ExistsTxnLogRecordList p t = true →
      LogRecordPool.CreateTxnLogList p t = (p, some PoolError.DuplicateTransaction))
    ∧ (LogRecordPool.ExistsTxnLogRecordList p t = false →
      LogRecordPool.CreateTxnLogList p t = ((t, []) :: p, none)
        ∧ LogRecordPool.lookupTxn ((t, []) :: p) t = some []) := by
  constructor
  · intro h
    simp [LogRecordPool.CreateTxnLogList, h]
  · intro h
    exact ⟨by simp [LogRecordPool.CreateTxnLogList, h], by simp [LogRecordPool.lookupTxn]⟩

/-- Claim C3 witness: creating txn 3's list twice fails with
`DuplicateTransaction` without touching the pool; creating txn 7's list in the
empty pool succeeds with an empty list. -/
theorem claim_C3_witness :
    LogRecordPool.CreateTxnLogList [(3, [])] 3
        = ([(3, [])], some PoolError.DuplicateTransaction)
    ∧ LogRecordPool.CreateTxnLogList [] 7 = ([(7, [])], none) :=
  ⟨(claim_C3_createList [(3, [])] 3).1 (by decide),
    ((claim_C3_createList [] 7).2 (by decide)).1⟩

/-- Claim C4: after `Remove(txn)` — or after a successful `DrainFor(txn)` —
`Exists(txn)` is false and stays false under any further operations that do
not include a new `CreateList(txn)`, and every `Append` of a record owned by
`txn` in that window fails with `NoSuchTransaction`: no resurrection of a
retired transaction. -/
theorem claim_C4_no_resurrection (p : Pool) (t : Nat) (r : TupleRecord)
    (ops : List PoolOp) (hr : r.txn_id = t)
    (hops : ∀ op ∈ ops, op ≠ PoolOp.createList t) :
    (LogRecordPool.ExistsTxnLogRecordList
        (runOps ops (LogRecordPool.RemoveTxnLogRecordList p t)) t = false
      ∧ LogRecordPool.AddLogRecord
          (runOps ops (LogRecordPool.RemoveTxnLogRecordList p t)) r
        = (runOps ops (LogRecordPool.RemoveTxnLogRecordList p t),
            some PoolError.NoSuchTransaction))
    ∧ ∀ l q, LogRecordPool.DrainFor p t = (Except.ok l, q) →
        (LogRecordPool.ExistsTxnLogRecordList (runOps ops q) t = false
          ∧ LogRecordPool.AddLogRecord (runOps ops q) r
            = (runOps ops q, some PoolError.NoSuchTransaction)) := by
  have key : ∀ q : Pool, LogRecordPool.lookupTxn q t = none →
      LogRecordPool.lookupTxn (runOps ops q) t = none := by
    intro q hq
    rw [lookupTxn_runOps, hq, foldl_stepProj_none t ops hops]
  have main : ∀ q : Pool, LogRecordPool.lookupTxn q t = none →
      LogRecordPool.ExistsTxnLogRecordList (runOps ops q) t = false
        ∧ LogRecordPool.AddLogRecord (runOps ops q) r
          = (runOps ops q, some PoolError.NoSuchTransaction) := by
    intro q hq
    refine ⟨by simp [LogRecordPool.ExistsTxnLogRecordList, key q hq], ?_⟩
    exact LogRecordPool.AddLogRecord_absent _ r (by rw [hr]; exact key q hq)
  refine ⟨main _ ?_, fun l q hdrain => ?_⟩
  · rw [LogRecordPool.lookupTxn_remove]
    simp
  · obtain ⟨-, hq⟩ := DrainFor_ok p t l q hdrain
    refine main q ?_
    rw [hq, LogRecordPool.lookupTxn_remove]
    simp

/-- Claim C4 witness: after removing txn 5 from a pool that held one of its
records, txn 5 no longer exists (also after an unrelated later remove), and an
append for txn 5 fails with `NoSuchTransaction`. -/
theorem claim_C4_witness :
    LogRecordPool.ExistsTxnLogRecordList
        (runOps [PoolOp.remove 8]
          (LogRecordPool.RemoveTxnLogRecordList [(5, [⟨5, 1⟩])] 5)) 5 = false
    ∧ LogRecordPool.AddLogRecord
        (runOps [PoolOp.remove 8]
          (LogRecordPool.RemoveTxnLogRecordList [(5, [⟨5, 1⟩])] 5)) ⟨5, 2⟩
      = (runOps [PoolOp.remove 8]
          (LogRecordPool.RemoveTxnLogRecordList [(5, [⟨5, 1⟩])] 5),
          some PoolError.NoSuchTransaction) :=
  (claim_C4_no_resurrection [(5, [⟨5, 1⟩])] 5 ⟨5, 2⟩ [PoolOp.remove 8] rfl
    (by decide)).1

/-- Claim C5: removing a transaction identifier that is absent from the pool
is a no-op that leaves the pool unchanged (and signals no error: the
operation returns only the pool), and `Remove` is idempotent. -/
theorem claim_C5_remove_idempotent (p : Pool) (t : Nat) :
    (LogRecordPool.ExistsTxnLogRecordList p t = false →
      LogRecordPool.RemoveTxnLogRecordList p t = p)
    ∧ LogRecordPool.RemoveTxnLogRecordList (LogRecordPool.RemoveTxnLogRecordList p t) t
        = LogRecordPool.RemoveTxnLogRecordList p t := by
  constructor
  · intro h
    cases hl : LogRecordPool.lookupTxn p t with
    | none => exact LogRecordPool.RemoveTxnLogRecordList_absent p t hl
    | some l => simp [LogRecordPool.ExistsTxnLogRecordList, hl] at h
  · exact LogRecordPool.RemoveTxnLogRecordList_idem p t

/-- Claim C5 witness: removing absent txn 9 from a pool holding txn 7 leaves
the pool unchanged. -/
theorem claim_C5_witness :
    LogRecordPool.RemoveTxnLogRecordList [(7, [])] 9 = [(7, [])] :=
  (claim_C5_remove_idempotent [(7, [])] 9).1 (by decide)

/-- Claim C6: after any operation sequence from the empty pool, `IsEmpty`
returns true exactly when every `CreateList` has been retired by a matching
remove or drain — i.e. when the specification automaton reports no
outstanding list for any transaction. -/
theorem claim_C6_isEmpty (ops : List PoolOp) :
    LogRecordPool.IsEmpty (runOps ops poolEmpty) = true
      ↔ ∀ t, trackTxn t ops = none := by
  rw [IsEmpty_iff_lookup]
  constructor
  · intro h t
    rw [← lookupTxn_runOps_empty]
    exact h t
  · intro h t
    rw [lookupTxn_runOps_empty]
    exact h t

/-- Claim C6 witness: after creating and removing txn 3's list the pool is
empty, and the theorem yields that txn 3 has no outstanding list. -/
theorem claim_C6_witness :
    trackTxn 3 [PoolOp.createList 3, PoolOp.remove 3] = none :=
  (claim_C6_isEmpty [PoolOp.createList 3, PoolOp.remove 3]).mp (by decide) 3

/-- Claim C7: in every pool state reachable from the empty pool, the list held
under a transaction identifier — and the list `DrainFor` returns for it —
contains only records owned by that transaction: the pool never yields a list
mixing records of different owning transactions. -/
theorem claim_C7_single_owner (ops : List PoolOp) (t : Nat) (l : List TupleRecord) :
    (LogRecordPool.lookupTxn (runOps ops poolEmpty) t = some l →
      ∀ r ∈ l, r.txn_id = t)
    ∧ ((LogRecordPool.DrainFor (runOps ops poolEmpty) t).1 = Except.ok l →
      ∀ r ∈ l, r.txn_id = t) := by
  have hInv : AllOwned (runOps ops poolEmpty) :=
    AllOwned_runOps ops (fun e he => by simp [poolEmpty] at he)
  constructor
  · intro h r hr
    exact hInv (t, l) (lookupTxn_mem h) r hr
  · intro h
    cases hl : LogRecordPool.lookupTxn (runOps ops poolEmpty) t with
    | none => simp [LogRecordPool.DrainFor, hl] at h
    | some l2 =>
      have hll : l2 = l := by simpa [LogRecordPool.DrainFor, hl] using h
      intro r hr
      refine hInv (t, l2) (lookupTxn_mem hl) r ?_
      rw [hll]
      exact hr

/-- Claim C7 witness: after `CreateList(3)` and an append for txn 3, the
record found in txn 3's list is owned by txn 3. -/
theorem claim_C7_witness : (⟨3, 7⟩ : TupleRecord).txn_id = 3 :=
  (claim_C7_single_owner [PoolOp.createList 3, PoolOp.append ⟨3, 7⟩] 3
      [⟨3, 7⟩]).1 (by decide) ⟨3, 7⟩ (by decide)

/-- Claim C8 counterexample: immediately after `CreateList(5)` the identifier
5 is present in the pool while its record list is empty — presence with an
empty record list does occur, contrary to the claim's parenthetical. -/
theorem claim_C8_counterexample :
    LogRecordPool.ExistsTxnLogRecordList (runOps [PoolOp.createList 5] poolEmpty) 5 = true
    ∧ LogRecordPool.lookupTxn (runOps [PoolOp.createList 5] poolEmpty) 5 = some [] := by
  decide

/-- Claim C8 (amended): in every reachable pool state each transaction
identifier keys at most one record list (the key sequence is duplicate-free),
and an identifier is present exactly when the specification automaton says a
(possibly still empty) list is outstanding for it. -/
theorem claim_C8_amended_unique_keys (ops : List PoolOp) :
    ((runOps ops poolEmpty).map Prod.fst).Nodup
    ∧ ∀ t, LogRecordPool.ExistsTxnLogRecordList (runOps ops poolEmpty) t
        = (trackTxn t ops).isSome := by
  refine ⟨nodup_keys_runOps ops (by simp [poolEmpty]), fun t => ?_⟩
  simp [LogRecordPool.ExistsTxnLogRecordList, lookupTxn_runOps_empty]

/-- Claim C9: for the bit-shift builtins on non-null BIGINT (`int64_t`)
inputs, a negative shift count raises `ValueOutOfRangeException`; a count
above 63 returns BIGINT 0 for both shifts; otherwise BIT_SHIFT_LEFT returns
the left shift of the 64-bit pattern (`lv * 2^s` wrapped modulo `2^64`) and
BIT_SHIFT_RIGHT the logical, zero-filling right shift (`pattern / 2^s`), and
either shift raises `ValueOutOfRangeException` exactly when the 64-bit result
equals `INT64_MIN`. -/
theorem claim_C9_shifts (lv rv : Int) (hl : inInt64 lv) (hr : inInt64 rv)
    (hnl : isNull64 lv = false) (hnr : isNull64 rv = false) :
    (rv < 0 →
        callBitShiftLeft lv rv = Except.error SqlError.ValueOutOfRange
        ∧ callBitShiftRight lv rv = Except.error SqlError.ValueOutOfRange)
    ∧ (63 < rv →
        callBitShiftLeft lv rv = Except.ok 0
        ∧ callBitShiftRight lv rv = Except.ok 0)
    ∧ (0 ≤ rv → rv ≤ 63 →
        ((callBitShiftLeft lv rv = Except.error SqlError.ValueOutOfRange
            ↔ ofU64 ((toU64 lv * 2 ^ rv.toNat) % 2 ^ 64) = INT64_MIN)
        ∧ (ofU64 ((toU64 lv * 2 ^ rv.toNat) % 2 ^ 64) ≠ INT64_MIN →
            callBitShiftLeft lv rv
              = Except.ok (ofU64 ((toU64 lv * 2 ^ rv.toNat) % 2 ^ 64)))
        ∧ (callBitShiftRight lv rv = Except.error SqlError.ValueOutOfRange
            ↔ ofU64 (toU64 lv / 2 ^ rv.toNat) = INT64_MIN)
        ∧ (ofU64 (toU64 lv / 2 ^ rv.toNat) ≠ INT64_MIN →
            callBitShiftRight lv rv
              = Except.ok (ofU64 (toU64 lv / 2 ^ rv.toNat))))) := by
  refine ⟨fun hneg => ?_, fun hbig => ?_, fun h0 h63 => ?_⟩
  · constructor <;> simp [callBitShiftLeft, callBitShiftRight, hnl, hnr, hneg]
  · have hnneg : ¬rv < 0 := by omega
    constructor <;>
      simp [callBitShiftLeft, callBitShiftRight, hnl, hnr, hnneg, hbig]
  · have hnneg : ¬rv < 0 := by omega
    have hnbig : ¬63 < rv := by omega
    refine ⟨?_, ?_, ?_, ?_⟩
    · by_cases hm : ofU64 ((toU64 lv * 2 ^ rv.toNat) % 2 ^ 64) = INT64_MIN <;>
        simp [callBitShiftLeft, hnl, hnr, hnneg, hnbig, INT64_NULL,
          Nat.shiftLeft_eq, hm]
    · intro hm
      simp at hm
      simp [callBitShiftLeft, hnl, hnr, hnneg, hnbig, INT64_NULL,
        Nat.shiftLeft_eq, hm]
    · by_cases hm : ofU64 (toU64 lv / 2 ^ rv.toNat) = INT64_MIN <;>
        simp [callBitShiftRight, hnl, hnr, hnneg, hnbig, INT64_NULL,
          Nat.shiftRight_eq_div_pow, hm]
    · intro hm
      simp [callBitShiftRight, hnl, hnr, hnneg, hnbig, INT64_NULL,
        Nat.shiftRight_eq_div_pow, hm]

/-- Claim C9 witness: `1 << 63` produces the `INT64_MIN` pattern and raises;
`5 << 2 = 20`; `-8 >> 1` zero-fills to `2^63 - 4`; a shift count of 64
returns 0; a negative shift count raises. -/
theorem claim_C9_witness :
    callBitShiftLeft 1 63 = Except.error SqlError.ValueOutOfRange
    ∧ callBitShiftLeft 5 2 = Except.ok 20
    ∧ callBitShiftRight (-8) 1 = Except.ok (2 ^ 63 - 4)
    ∧ callBitShiftLeft 7 64 = Except.ok 0
    ∧ callBitShiftRight 1 (-1) = Except.error SqlError.ValueOutOfRange := by
  have h1 := claim_C9_shifts 1 63 (by decide) (by decide) (by decide) (by decide)
  have h2 := claim_C9_shifts 5 2 (by decide) (by decide) (by decide) (by decide)
  have h3 := claim_C9_shifts (-8) 1 (by decide) (by decide) (by decide) (by decide)
  have h4 := claim_C9_shifts 7 64 (by decide) (by decide) (by decide) (by decide)
  have h5 := claim_C9_shifts 1 (-1) (by decide) (by decide) (by decide) (by decide)
  refine ⟨?_, ?_, ?_, ?_, ?_⟩
  · exact ((h1.2.2 (by decide) (by decide)).1).mpr (by decide)
  · have hc := (h2.2.2 (by decide) (by decide)).2.1 (by decide)
    have hv : ofU64 ((toU64 5 * 2 ^ (2 : Int).toNat) % 2 ^ 64) = 20 := by decide
    rw [hc, hv]
  · have hc := (h3.2.2 (by decide) (by decide)).2.2.2 (by decide)
    have hv : ofU64 (toU64 (-8) / 2 ^ (1 : Int).toNat) = 2 ^ 63 - 4 := by decide
    rw [hc, hv]
  · exact (h4.2.1 (by decide)).1
  · exact (h5.1 (by decide)).2

/-- Claim C10: for BITNOT, BITAND, BITOR and BITXOR on BIGINT (`int64_t`)
inputs, a SQL NULL input yields the BIGINT NULL value with no exception;
otherwise the function raises `ValueOutOfRangeException` exactly when the
64-bit bitwise result equals `INT64_MIN` (the pattern reserved for SQL NULL),
and otherwise returns that bitwise result. -/
theorem claim_C10_bitwise_null_reserved (lv rv : Int)
    (hl : inInt64 lv) (hr : inInt64 rv) :
    (isNull64 lv = true → callBitnot lv = Except.ok INT64_NULL)
    ∧ ((isNull64 lv = true ∨ isNull64 rv = true) →
        callBitand lv rv = Except.ok INT64_NULL
        ∧ callBitor lv rv = Except.ok INT64_NULL
        ∧ callBitxor lv rv = Except.ok INT64_NULL)
    ∧ (isNull64 lv = false → isNull64 rv = false →
        ((callBitnot lv = Except.error SqlError.ValueOutOfRange
            ↔ -lv - 1 = INT64_MIN)
        ∧ (-lv - 1 ≠ INT64_MIN → callBitnot lv = Except.ok (-lv - 1))
        ∧ (callBitand lv rv = Except.error SqlError.ValueOutOfRange
            ↔ land64 lv rv = INT64_MIN)
        ∧ (land64 lv rv ≠ INT64_MIN →
            callBitand lv rv = Except.ok (land64 lv rv))
        ∧ (callBitor lv rv = Except.error SqlError.ValueOutOfRange
            ↔ lor64 lv rv = INT64_MIN)
        ∧ (lor64 lv rv ≠ INT64_MIN →
            callBitor lv rv = Except.ok (lor64 lv rv))
        ∧ (callBitxor lv rv = Except.error SqlError.ValueOutOfRange
            ↔ lxor64 lv rv = INT64_MIN)
        ∧ (lxor64 lv rv ≠ INT64_MIN →
            callBitxor lv rv = Except.ok (lxor64 lv rv)))) := by
  refine ⟨fun h => ?_, fun h => ?_, fun h1 h2 => ?_⟩
  · simp [callBitnot, h]
  · rcases h with h | h <;> simp [callBitand, callBitor, callBitxor, h]
  · refine ⟨?_, ?_, ?_, ?_, ?_, ?_, ?_, ?_⟩
    · by_cases hm : -lv - 1 = INT64_MIN <;>
        simp [callBitnot, h1, INT64_NULL, hm]
    · intro hm
      simp [callBitnot, h1, INT64_NULL, hm]
    · by_cases hm : land64 lv rv = INT64_MIN <;>
        simp [callBitand, h1, h2, INT64_NULL, hm]
    · intro hm
      simp [callBitand, h1, h2, INT64_NULL, hm]
    · by_cases hm : lor64 lv rv = INT64_MIN <;>
        simp [callBitor, h1, h2, INT64_NULL, hm]
    · intro hm
      simp [callBitor, h1, h2, INT64_NULL, hm]
    · by_cases hm : lxor64 lv rv = INT64_MIN <;>
        simp [callBitxor, h1, h2, INT64_NULL, hm]
    · intro hm
      simp [callBitxor, h1, h2, INT64_NULL, hm]

/-- Claim C10 witness: `BITAND(6, 3) = 2`; `BITAND(INT64_MIN + 1, -2)` would
produce the `INT64_MIN` pattern and raises; `BITXOR(NULL, 3)` is NULL. -/
theorem claim_C10_witness :
    callBitand 6 3 = Except.ok 2
    ∧ callBitand (-(2 ^ 63) + 1) (-2) = Except.error SqlError.ValueOutOfRange
    ∧ callBitxor (-(2 ^ 63)) 3 = Except.ok INT64_NULL := by
  have h1 := claim_C10_bitwise_null_reserved 6 3 (by decide) (by decide)
  have h2 := claim_C10_bitwise_null_reserved (-(2 ^ 63) + 1) (-2)
    (by decide) (by decide)
  have h3 := claim_C10_bitwise_null_reserved (-(2 ^ 63)) 3 (by decide) (by decide)
  refine ⟨?_, ?_, ?_⟩
  · have hc := (h1.2.2 (by decide) (by decide)).2.2.2.1 (by decide)
    have hv : land64 6 3 = 2 := by decide
    rw [hc, hv]
  · exact ((h2.2.2 (by decide) (by decide)).2.2.1).mpr (by decide)
  · exact (h3.2.1 (Or.inl (by decide))).2.2

